import Mathlib

/-!
Verification of the GBenchCMake plotting data model.

This file gives a shallow embedding of the in-memory tabular data model of
the repository: the column-descriptor factory `makePlotColumnDesc`, the
column registry `PlotDescription`, the row container `DataTable` and its
serializer, and the domain-indexed `Plot` specialization
(src/DrawGraphs/plot.py, with the parallel draft in src/main.py), together
with theorems about their behavior.

Python dictionaries are modelled as association lists with
insert-or-replace-in-place semantics (`dictInsert`), which matches Python's
ordered dictionaries: an assignment to an existing key keeps its position
and replaces its value, an assignment to a fresh key appends it at the end.
Python exceptions are modelled by the `PyError` inductive, with one
constructor per distinct raise site payload; functions that can raise
return `Except PyError _`.
-/

/-- Runtime values stored in rows: Python strings, ints, datetime objects
and `None`.  `vDatetime` carries year, month (one-based, as in Python's
`datetime`), day, hour, minute, second. -/
inductive Value where
  | vStr (s : String)
  | vInt (n : Int)
  | vDatetime (year month day hour minute second : Int)
  | vNone
deriving DecidableEq

/-- A row is a Python dict from column id to value, modelled as an
association list. -/
abbrev Row := List (String × Value)

/-- Python dict assignment `d[k] = v`: replace the value at the first
occurrence of `k` keeping its position, or append `(k, v)` at the end when
`k` is absent. -/
def dictInsert {α β : Type} [DecidableEq α] (k : α) (v : β) : List (α × β) → List (α × β)
  | [] => [(k, v)]
  | kv :: t => if kv.1 = k then (k, v) :: t else kv :: dictInsert k v t

/-- Python dict lookup `d.get(k)`: the value at the first occurrence of
`k`, if any. -/
def dictGet {α β : Type} [DecidableEq α] (k : α) : List (α × β) → Option β
  | [] => none
  | kv :: t => if kv.1 = k then some kv.2 else dictGet k t

/-- Python `d.update(vals)`: assign every key-value pair of `vals` into
`d`, in iteration order. -/
def updateRow (r : Row) (vals : Row) : Row :=
  vals.foldl (fun acc kv => dictInsert kv.1 kv.2 acc) r

/-- Python exceptions raised by the model, one constructor per distinct
raise-site payload in the source. -/
inductive PyError where
  /-- `PlotRowException("Row is missing domain value.")`
  (plot.py lines 122-123 and 178-179). -/
  | missingDomainValue
  /-- `PlotRowException("Adding row with unknown columns: {diff}")`
  carrying the offending key set (plot.py lines 180-182). -/
  | unknownColumns (cols : List String)
  /-- `PlotRowException("Adding value to an unknown column: {col}")`
  (plot.py lines 224-226). -/
  | unknownColumn (col : String)
  /-- `PlotRowException("Trying to access row with invalid id: {rowId}")`
  (plot.py lines 116-118 and 124-126). -/
  | rowIndexOutOfRange (rowId : Int)
  /-- Python `KeyError` from `row[col]` / `columns[colId]`
  (plot.py lines 137 and 199). -/
  | keyError (key : String)
  /-- Python `KeyError` from `self.__xAxisIndex[domainValue]`
  (plot.py line 245). -/
  | keyErrorDomain (key : Value)
  /-- Python `AttributeError`: `value.year` on a non-datetime value
  (plot.py lines 141-154). -/
  | attributeError (attr : String)
  /-- Python `NameError`: the raise site references a name that is not
  defined in the module (plot.py line 63 references `PlotDescriptionError`,
  which only exists in main.py). -/
  | nameError (name : String)
  /-- Python `TypeError("exceptions must derive from BaseException")`:
  `PlotColumnException` is declared with `def`, not `class` (plot.py
  lines 5-7), so `PlotColumnException(msg)` evaluates to `None` and
  `raise None` fails, discarding the formatted message. -/
  | typeErrorRaiseNonException
  /-- `PlotDescriptionError(domainId, message)` from main.py lines 18-21
  and 36-37. -/
  | plotDescriptionError (domainId msg : String)
deriving DecidableEq

/-- A column descriptor dict as built by `makePlotColumnDesc`
(plot.py lines 27-33): keys `id`, `label`, `type` in that insertion order,
plus `role` only when a truthy role was given. -/
structure ColDesc where
  id : String
  label : String
  type : String
  role : Option String
deriving DecidableEq

/-- The allowed column types (plot.py line 23). -/
def allowedPlotColumnTypes : List String :=
  ["string", "date", "datetime", "number", "boolean", "timeofday"]

/-- Embedding of `makePlotColumnDesc` (plot.py lines 10-34).  A `None`
label or an empty-string label is falsy, so the id is substituted; the
same truthiness test governs `role`.  An unsupported type formats a
message naming the offending type and the allowed set, but the raise of
`PlotColumnException(msg)` fails with a bare `TypeError` because
`PlotColumnException` is declared with `def` (plot.py lines 5-7), so the
message is discarded. -/
def makePlotColumnDesc (id : String) (label : Option String) (type : String)
    (role : Option String) : Except PyError ColDesc :=
  if !(decide (type ∈ allowedPlotColumnTypes)) then
    Except.error PyError.typeErrorRaiseNonException
  else
    Except.ok
      { id := id
        label := match label with
          | none => id
          | some s => if s = "" then id else s
        type := type
        role := match role with
          | none => none
          | some r => if r = "" then none else some r }

/-- The column registry: designated domain column id plus an ordered dict
from column id to descriptor (plot.py lines 41-63). -/
structure PlotDescription where
  domainId : String
  columns : List (String × ColDesc)
deriving DecidableEq

/-- Embedding of `PlotDescription.__init__` (plot.py lines 48-63).  The
columns dict is built from the list (duplicate ids collapse onto the first
occurrence's slot, later content winning).  When the domain id is absent
the source executes `raise PlotDescriptionError(...)`, but that name is
not defined in plot.py (only `PlotDescriptionException` is, and it is
never used), so the construction fails with a Python `NameError`. -/
def PlotDescription.make (domainId : String) (columnList : List ColDesc) :
    Except PyError PlotDescription :=
  let columns := columnList.foldl (fun acc c => dictInsert c.id c acc) []
  if (dictGet domainId columns).isNone then
    Except.error (PyError.nameError "PlotDescriptionError")
  else
    Except.ok { domainId := domainId, columns := columns }

/-- Embedding of main.py's `PlotDescription.__init__` (main.py lines
28-37): same dict construction, tracking a `hasDomain` flag over the list,
raising a proper `PlotDescriptionError` when the domain id never occurs. -/
def MainPlotDescription.make (domainId : String) (columnList : List ColDesc) :
    Except PyError PlotDescription :=
  let columns := columnList.foldl (fun acc c => dictInsert c.id c acc) []
  let hasDomain := columnList.any (fun c => decide (c.id = domainId))
  if hasDomain = false then
    Except.error
      (PyError.plotDescriptionError domainId "Plot description must contain a domain column")
  else
    Except.ok { domainId := domainId, columns := columns }

/-- Embedding of `PlotDescription.addColumn` (plot.py lines 65-71):
unconditional dict assignment keyed by the descriptor's id. -/
def PlotDescription.addColumn (d : PlotDescription) (column : ColDesc) : PlotDescription :=
  { d with columns := dictInsert column.id column d.columns }

/-- Embedding of `PlotDescription.containsColumn` (plot.py lines 73-74):
key membership of the descriptor's id. -/
def PlotDescription.containsColumn (d : PlotDescription) (column : ColDesc) : Bool :=
  (dictGet column.id d.columns).isSome

/-- The row container (plot.py lines 81-201): a registry, an ordered row
list, and an opaque options dict. -/
structure DataTable where
  description : PlotDescription
  rows : List Row
  options : List (String × Value)
deriving DecidableEq

/-- Embedding of `DataTable.__init__` (plot.py lines 91-94). -/
def DataTable.init (description : PlotDescription) : DataTable :=
  { description := description, rows := [], options := [] }

/-- The `domainId` property (plot.py lines 104-106). -/
def DataTable.domainId (t : DataTable) : String :=
  t.description.domainId

/-- The `columns` property (plot.py lines 108-110): the registry's key
view, in registration order. -/
def DataTable.columns (t : DataTable) : List String :=
  t.description.columns.map Prod.fst

/-- Embedding of `DataTable.__getitem__` (plot.py lines 115-119). -/
def DataTable.getItem (t : DataTable) (rowId : Int) : Except PyError Row :=
  if rowId < 0 ∨ (t.rows.length : Int) ≤ rowId then
    Except.error (PyError.rowIndexOutOfRange rowId)
  else
    match t.rows[rowId.toNat]? with
    | some r => Except.ok r
    | none => Except.error (PyError.rowIndexOutOfRange rowId)

/-- Embedding of `DataTable.__setitem__` (plot.py lines 121-127): domain
presence is checked first, then the index bound; unknown columns are not
re-checked. -/
def DataTable.setItem (t : DataTable) (rowId : Int) (values : Row) : Except PyError DataTable :=
  if (dictGet t.description.domainId values).isNone then
    Except.error PyError.missingDomainValue
  else if rowId < 0 ∨ (t.rows.length : Int) ≤ rowId then
    Except.error (PyError.rowIndexOutOfRange rowId)
  else
    Except.ok { t with rows := t.rows.set rowId.toNat values }

/-- Embedding of `DataTable.addColumn` (plot.py lines 164-166): register
the descriptor only when its id is not already present. -/
def DataTable.addColumn (t : DataTable) (colDesc : ColDesc) : DataTable :=
  if PlotDescription.containsColumn t.description colDesc = false then
    { t with description := PlotDescription.addColumn t.description colDesc }
  else t

/-- Embedding of `DataTable.addRow` (plot.py lines 168-185).  The result
pairs the raised-or-returned outcome with the table after the call, so
that the no-partial-write behavior is explicit: both raises happen before
the append. -/
def DataTable.addRow (t : DataTable) (rowData : Row) : Except PyError Nat × DataTable :=
  if (dictGet t.description.domainId rowData).isNone then
    (Except.error PyError.missingDomainValue, t)
  else
    let diff := ((rowData.map Prod.fst).filter (fun k => !(decide (k ∈ DataTable.columns t)))).dedup
    if diff ≠ [] then
      (Except.error (PyError.unknownColumns diff), t)
    else
      (Except.ok t.rows.length, { t with rows := t.rows ++ [rowData] })

/-- Zero-padded decimal rendering of a nonnegative component, as CPython's
`str(datetime)` does; falls back to plain rendering otherwise. -/
def intPadded (width : Nat) (n : Int) : String :=
  let s := toString n
  if 0 ≤ n ∧ s.length < width then
    String.mk (List.replicate (width - s.length) (Char.ofNat 48)) ++ s
  else s

/-- Python `str(value)` for the values of the model, as used by
`_toJsonStrValue` (plot.py lines 156-158). -/
def pyStr (v : Value) : String :=
  match v with
  | Value.vStr s => s
  | Value.vInt n => toString n
  | Value.vNone => "None"
  | Value.vDatetime y mo d h mi s =>
      intPadded 4 y ++ "-" ++ intPadded 2 mo ++ "-" ++ intPadded 2 d ++ " " ++
        intPadded 2 h ++ ":" ++ intPadded 2 mi ++ ":" ++ intPadded 2 s

/-- Embedding of `DataTable._toJsonStrValue` (plot.py lines 129-159).
The column's declared type is looked up first (a `KeyError` when the id is
unregistered), `None` renders as the literal `null`, datetimes and dates
render as `"Date(year, month-1, day[, hour, minute, second])"` with the
`", "` separators of the `%` format string, strings are wrapped in double
quotes without escaping, and everything else renders via `str`. -/
def DataTable.toJsonStrValue (t : DataTable) (colId : String) (value : Value) :
    Except PyError String :=
  match dictGet colId t.description.columns with
  | none => Except.error (PyError.keyError colId)
  | some colDesc =>
    if value = Value.vNone then Except.ok "null"
    else if colDesc.type = "datetime" then
      match value with
      | Value.vDatetime y mo d h mi s =>
          Except.ok ("\"Date(" ++ toString y ++ ", " ++ toString (mo - 1) ++ ", " ++
            toString d ++ ", " ++ toString h ++ ", " ++ toString mi ++ ", " ++
            toString s ++ ")\"")
      | _ => Except.error (PyError.attributeError "year")
    else if colDesc.type = "date" then
      match value with
      | Value.vDatetime y mo d _ _ _ =>
          Except.ok ("\"Date(" ++ toString y ++ ", " ++ toString (mo - 1) ++ ", " ++
            toString d ++ ")\"")
      | _ => Except.error (PyError.attributeError "year")
    else if colDesc.type = "string" then Except.ok ("\"" ++ pyStr value ++ "\"")
    else Except.ok (pyStr value)

/-- One escaped character of Python's `json.dumps` string encoder,
restricted to the printable-ASCII input this model serializes. -/
def jsonEscapeChar (c : Char) : String :=
  if c = Char.ofNat 34 then "\\\""
  else if c = Char.ofNat 92 then "\\\\"
  else if c = Char.ofNat 10 then "\\n"
  else if c = Char.ofNat 9 then "\\t"
  else if c = Char.ofNat 13 then "\\r"
  else String.singleton c

/-- Python `json.dumps` of a string (printable-ASCII fragment). -/
def jsonStrLit (s : String) : String :=
  "\"" ++ String.join (s.toList.map jsonEscapeChar) ++ "\""

/-- Python `json.dumps` of one column-descriptor dict, with the default
`", "` and `": "` separators and the dict's insertion order
`id, label, type[, role]`. -/
def jsonDumpColDesc (c : ColDesc) : String :=
  "\x7b\"id\": " ++ jsonStrLit c.id ++ ", \"label\": " ++ jsonStrLit c.label ++
    ", \"type\": " ++ jsonStrLit c.type ++
    (match c.role with
      | none => ""
      | some r => ", \"role\": " ++ jsonStrLit r) ++ "\x7d"

/-- Python `json.dumps` of the descriptor list (plot.py line 201). -/
def jsonDumpColDescList (cs : List ColDesc) : String :=
  "[" ++ String.intercalate ", " (cs.map jsonDumpColDesc) ++ "]"

/-- The per-row serializer lambda `createRow` inside
`toGoogleChartArrayStr` (plot.py line 199): `row[col]` raises a `KeyError`
for a registered column absent from the row; present values go through
`_toJsonStrValue`; the cell strings are joined with `","`. -/
def DataTable.createRow (t : DataTable) (row : Row) : Except PyError String := do
  let cells ← (DataTable.columns t).mapM (fun col =>
    match dictGet col row with
    | none => Except.error (PyError.keyError col)
    | some v => DataTable.toJsonStrValue t col v)
  Except.ok ("[" ++ String.intercalate "," cells ++ "]")

/-- Embedding of `DataTable.toGoogleChartArrayStr` (plot.py lines
187-201): the single-quoted two-level array literal, the JSON-encoded
descriptor list first, then the `","`-joined row literals, the two parts
joined by `", "`. -/
def DataTable.toGoogleChartArrayStr (t : DataTable) : Except PyError String := do
  let rowStrs ← t.rows.mapM (fun row => DataTable.createRow t row)
  Except.ok ("\x27[" ++ jsonDumpColDescList (t.description.columns.map Prod.snd) ++
    ", " ++ String.intercalate "," rowStrs ++ "]\x27")

/-- The domain-indexed specialization (plot.py lines 204-254): a
`DataTable` plus the `__xAxisIndex` dict from domain value to row
position. -/
structure Plot extends DataTable where
  xAxisIndex : List (Value × Nat)
deriving DecidableEq

/-- Embedding of `Plot.__init__` (plot.py lines 213-215). -/
def Plot.init (description : PlotDescription) : Plot :=
  { toDataTable := DataTable.init description, xAxisIndex := [] }

/-- Embedding of `Plot.addValue` (plot.py lines 217-233).  Every key of
`values` must be a registered column (first offender raises).  The
`.get(domainValue, -1)` sentinel is modelled by the option returned by
`dictGet`: stored positions are nonnegative, so the sentinel test is
exactly a presence test.  A fresh domain value synthesizes
`{**values, domainId: domainValue}` and appends it through `addRow`,
recording the new index; a seen one merges `values` into the existing row
in place. -/
def Plot.addValue (p : Plot) (domainValue : Value) (values : Row) : Except PyError Plot :=
  match values.find? (fun kv => !(decide (kv.1 ∈ DataTable.columns p.toDataTable))) with
  | some kv => Except.error (PyError.unknownColumn kv.1)
  | none =>
    match dictGet domainValue p.xAxisIndex with
    | none =>
      match DataTable.addRow p.toDataTable
          (dictInsert (DataTable.domainId p.toDataTable) domainValue values) with
      | (Except.error e, _) => Except.error e
      | (Except.ok rowId, t2) =>
          Except.ok { p with toDataTable := t2,
                             xAxisIndex := dictInsert domainValue rowId p.xAxisIndex }
    | some idx =>
      match DataTable.getItem p.toDataTable (Int.ofNat idx) with
      | Except.error e => Except.error e
      | Except.ok r =>
          Except.ok { p with toDataTable :=
            { p.toDataTable with rows := p.toDataTable.rows.set idx (updateRow r values) } }

/-- Embedding of `Plot.__setitem__` (plot.py lines 235-242): a fresh
domain value takes the same synthesize-append-index path as `addValue`
(with no unknown-column pre-check of its own); a seen one replaces the
whole row through `DataTable.__setitem__`. -/
def Plot.setItem (p : Plot) (domainValue : Value) (values : Row) : Except PyError Plot :=
  match dictGet domainValue p.xAxisIndex with
  | none =>
    match DataTable.addRow p.toDataTable
        (dictInsert (DataTable.domainId p.toDataTable) domainValue values) with
    | (Except.error e, _) => Except.error e
    | (Except.ok rowId, t2) =>
        Except.ok { p with toDataTable := t2,
                           xAxisIndex := dictInsert domainValue rowId p.xAxisIndex }
  | some idx =>
    match DataTable.setItem p.toDataTable (Int.ofNat idx) values with
    | Except.error e => Except.error e
    | Except.ok t2 => Except.ok { p with toDataTable := t2 }

/-- Embedding of `Plot.__getitem__` (plot.py lines 244-246):
`self.__xAxisIndex[domainValue]` raises a `KeyError` for an unindexed
domain value; the position is then read through the base accessor. -/
def Plot.getItemByDomain (p : Plot) (domainValue : Value) : Except PyError Row :=
  match dictGet domainValue p.xAxisIndex with
  | none => Except.error (PyError.keyErrorDomain domainValue)
  | some idx => DataTable.getItem p.toDataTable (Int.ofNat idx)

/-- One mutating call on a `Plot`: `addValue`, `__setitem__` by domain
value, or the inherited `DataTable.addRow`. -/
inductive PlotOp where
  | addValueOp (domainValue : Value) (values : Row)
  | setItemOp (domainValue : Value) (values : Row)
  | addRowOp (rowData : Row)
deriving DecidableEq

/-- Apply one operation to a `Plot`.  The inherited `addRow` appends
through the base class and leaves `xAxisIndex` untouched, exactly as in
the source where `Plot` does not override `addRow`. -/
def Plot.applyOp (p : Plot) : PlotOp → Except PyError Plot
  | PlotOp.addValueOp d vals => p.addValue d vals
  | PlotOp.setItemOp d vals => p.setItem d vals
  | PlotOp.addRowOp row =>
    match DataTable.addRow p.toDataTable row with
    | (Except.ok _, t2) => Except.ok { p with toDataTable := t2 }
    | (Except.error e, _) => Except.error e

/-- Apply a sequence of operations, stopping at the first raise. -/
def Plot.applyOps (p : Plot) (ops : List PlotOp) : Except PyError Plot :=
  ops.foldlM Plot.applyOp p

/-- Consistency of the domain index with the row sequence: every index
entry points at a valid row position whose row's domain value is the
entry's key, and every row's domain value is indexed back to that row's
position. -/
def PlotInv (p : Plot) : Prop :=
  (∀ pr ∈ p.xAxisIndex,
      (p.toDataTable.rows[pr.2]?.bind
        (fun r => dictGet (DataTable.domainId p.toDataTable) r)) = some pr.1) ∧
  (∀ i, (hi : i < p.toDataTable.rows.length) →
      ((dictGet (DataTable.domainId p.toDataTable) (p.toDataTable.rows.get ⟨i, hi⟩)).bind
        (fun d => dictGet d p.xAxisIndex)) = some i)

instance instDecidablePlotInv (p : Plot) : Decidable (PlotInv p) := by
  unfold PlotInv
  infer_instance

/-- Side condition under which a value mapping cannot rebind the domain
column away from the operation's own domain value: it either omits the
domain id or binds it to that very value.  The inherited `addRow` never
satisfies it, since it bypasses the index entirely. -/
def goodOp (domId : String) : PlotOp → Bool
  | PlotOp.addValueOp d vals => vals.all (fun kv => decide (kv.1 = domId → kv.2 = d))
  | PlotOp.setItemOp d vals => vals.all (fun kv => decide (kv.1 = domId → kv.2 = d))
  | PlotOp.addRowOp _ => false

/-- The registry of the serialization examples: columns
`[date: datetime, cpu_time: number]` with labels defaulting to the ids,
`date` as the domain column. -/
def chartDesc : PlotDescription :=
  { domainId := "date",
    columns := [("date", { id := "date", label := "date", type := "datetime", role := none }),
                ("cpu_time", { id := "cpu_time", label := "cpu_time", type := "number",
                               role := none })] }

/-- A table over `chartDesc` holding the single full row
`{date: datetime(2021, 1, 2, 3, 4, 5), cpu_time: 42}`. -/
def chartTableFull : DataTable :=
  { description := chartDesc,
    rows := [[("date", Value.vDatetime 2021 1 2 3 4 5), ("cpu_time", Value.vInt 42)]],
    options := [] }

/-- A table over `chartDesc` holding one partial row in which the
registered column `cpu_time` is absent. -/
def chartTablePartial : DataTable :=
  { description := chartDesc,
    rows := [[("date", Value.vDatetime 2021 1 2 3 4 5)]],
    options := [] }

/-! ### Dictionary lemmas -/

theorem dictGet_dictInsert {α β : Type} [DecidableEq α] (k k' : α) (v : β)
    (l : List (α × β)) :
    dictGet k' (dictInsert k v l) = if k = k' then some v else dictGet k' l := by
  induction l with
  | nil => simp [dictInsert, dictGet]
  | cons kv t ih =>
    simp only [dictInsert]
    split
    next hk =>
      simp only [dictGet]
      split
      next hk' => rfl
      next hk' =>
        have hkv : ¬ kv.1 = k' := by rw [hk]; exact hk'
        simp [dictGet, hkv]
    next hk =>
      simp only [dictGet]
      split
      next hkv =>
        have : ¬ k = k' := by rw [← hkv]; exact fun h => hk h.symm
        simp [this]
      next hkv => exact ih

theorem mem_dictInsert {α β : Type} [DecidableEq α] {pr : α × β} {k : α} {v : β}
    {l : List (α × β)} (h : pr ∈ dictInsert k v l) : pr = (k, v) ∨ pr ∈ l := by
  induction l with
  | nil => simpa [dictInsert] using h
  | cons kv t ih =>
    simp only [dictInsert] at h
    split at h
    next hk =>
      rcases List.mem_cons.mp h with h1 | h1
      · exact Or.inl h1
      · exact Or.inr (List.mem_cons_of_mem _ h1)
    next hk =>
      rcases List.mem_cons.mp h with h1 | h1
      · exact Or.inr (h1 ▸ List.mem_cons_self _ _)
      · rcases ih h1 with h2 | h2
        · exact Or.inl h2
        · exact Or.inr (List.mem_cons_of_mem _ h2)

theorem dictGet_mem {α β : Type} [DecidableEq α] {k : α} {v : β} {l : List (α × β)}
    (h : dictGet k l = some v) : (k, v) ∈ l := by
  induction l with
  | nil => simp [dictGet] at h
  | cons kv t ih =>
    simp only [dictGet] at h
    split at h
    next hk =>
      cases h
      exact hk ▸ List.mem_cons_self _ _
    next hk => exact List.mem_cons_of_mem _ (ih h)

theorem dictGet_eq_none_iff {α β : Type} [DecidableEq α] (k : α) (l : List (α × β)) :
    dictGet k l = none ↔ k ∉ l.map Prod.fst := by
  induction l with
  | nil => simp [dictGet]
  | cons kv t ih =>
    simp only [dictGet, List.map_cons, List.mem_cons]
    split
    next hk => simp [hk]
    next hk =>
      rw [ih]
      constructor
      · intro h h2
        rcases h2 with h2 | h2
        · exact hk h2.symm
        · exact h h2
      · intro h h2
        exact h (Or.inr h2)

theorem dictGet_isSome_iff {α β : Type} [DecidableEq α] (k : α) (l : List (α × β)) :
    (dictGet k l).isSome = true ↔ k ∈ l.map Prod.fst := by
  rw [← Decidable.not_not (p := k ∈ l.map Prod.fst), ← dictGet_eq_none_iff]
  cases h : dictGet k l <;> simp

theorem dictGet_eq_some_of_mem_nodup {α β : Type} [DecidableEq α] {k : α} {v : β}
    {l : List (α × β)} (hnd : (l.map Prod.fst).Nodup) (h : (k, v) ∈ l) :
    dictGet k l = some v := by
  induction l with
  | nil => simp at h
  | cons kv t ih =>
    simp only [List.map_cons, List.nodup_cons] at hnd
    rcases List.mem_cons.mp h with h1 | h1
    · simp [dictGet, ← h1]
    · have hk : ¬ kv.1 = k := by
        intro hk
        exact hnd.1 (hk ▸ (List.mem_map_of_mem Prod.fst h1))
      simp only [dictGet, if_neg hk]
      exact ih hnd.2 h1

theorem keys_dictInsert_of_mem {α β : Type} [DecidableEq α] {k : α} (v : β)
    {l : List (α × β)} (h : k ∈ l.map Prod.fst) :
    (dictInsert k v l).map Prod.fst = l.map Prod.fst := by
  induction l with
  | nil => simp at h
  | cons kv t ih =>
    simp only [dictInsert]
    split
    next hk => simp [hk]
    next hk =>
      simp only [List.map_cons, List.mem_cons] at h
      rcases h with h1 | h1
      · exact absurd h1.symm hk
      · simp [List.map_cons, ih h1]

theorem mem_keys_dictInsert {α β : Type} [DecidableEq α] {k k' : α} {v : β}
    {l : List (α × β)} (h : k' ∈ (dictInsert k v l).map Prod.fst) :
    k' = k ∨ k' ∈ l.map Prod.fst := by
  rcases List.mem_map.mp h with ⟨pr, hpr, hfst⟩
  rcases mem_dictInsert hpr with h1 | h1
  · left; rw [← hfst, h1]
  · right; exact hfst ▸ List.mem_map_of_mem Prod.fst h1

theorem dictGet_updateRow_not_mem {k : String} {vals : Row} (r : Row)
    (h : k ∉ vals.map Prod.fst) :
    dictGet k (updateRow r vals) = dictGet k r := by
  induction vals generalizing r with
  | nil => rfl
  | cons kv t ih =>
    simp only [List.map_cons, List.mem_cons] at h
    push_neg at h
    simp only [updateRow, List.foldl_cons]
    rw [show (List.foldl (fun acc kv => dictInsert kv.1 kv.2 acc)
      (dictInsert kv.1 kv.2 r) t) = updateRow (dictInsert kv.1 kv.2 r) t from rfl]
    rw [ih (dictInsert kv.1 kv.2 r) h.2, dictGet_dictInsert]
    have hkv : ¬ kv.1 = k := fun hh => h.1 hh.symm
    simp [hkv]

theorem dictGet_updateRow_mem_nodup {k : String} {v : Value} {vals : Row} (r : Row)
    (hnd : (vals.map Prod.fst).Nodup) (h : (k, v) ∈ vals) :
    dictGet k (updateRow r vals) = some v := by
  induction vals generalizing r with
  | nil => simp at h
  | cons kv t ih =>
    simp only [List.map_cons, List.nodup_cons] at hnd
    simp only [updateRow, List.foldl_cons]
    rw [show (List.foldl (fun acc kv => dictInsert kv.1 kv.2 acc)
      (dictInsert kv.1 kv.2 r) t) = updateRow (dictInsert kv.1 kv.2 r) t from rfl]
    rcases List.mem_cons.mp h with h1 | h1
    · have hk : kv.1 = k := by rw [← h1]
      have hnotmem : k ∉ t.map Prod.fst := hk ▸ hnd.1
      rw [dictGet_updateRow_not_mem _ hnotmem, dictGet_dictInsert]
      simp [hk, ← h1]
    · exact ih (dictInsert kv.1 kv.2 r) hnd.2 h1

theorem dictGet_updateRow_fixed {k : String} {d : Value} {vals : Row} (r : Row)
    (hr : dictGet k r = some d) (h : ∀ kv ∈ vals, kv.1 = k → kv.2 = d) :
    dictGet k (updateRow r vals) = some d := by
  induction vals generalizing r with
  | nil => exact hr
  | cons kv t ih =>
    simp only [updateRow, List.foldl_cons]
    rw [show (List.foldl (fun acc kv => dictInsert kv.1 kv.2 acc)
      (dictInsert kv.1 kv.2 r) t) = updateRow (dictInsert kv.1 kv.2 r) t from rfl]
    refine ih (dictInsert kv.1 kv.2 r) ?_ ?_
    · rw [dictGet_dictInsert]
      split
      next hk => rw [h kv (List.mem_cons_self _ _) hk]
      next hk => exact hr
    · exact fun kv2 h2 => h kv2 (List.mem_cons_of_mem _ h2)

theorem set_append_singleton_length {α : Type} (l : List α) (a b : α) :
    (l ++ [a]).set l.length b = l ++ [b] := by
  induction l with
  | nil => rfl
  | cons x t ih => simp [List.set, ih]

/-! ### Claim theorems: column factory, registry, addRow -/

/-- C1: `DataTable.addRow` fails with the missing-domain-value error when
the row lacks the domain id key; it fails with the unknown-columns error
carrying exactly the set of row keys outside the registry when any key is
unregistered; in every failure case the table is unchanged; otherwise the
row is appended and the previous row count is returned as the new row's
zero-based index. -/
theorem addRow_spec (t : DataTable) (row : Row) :
    (dictGet (DataTable.domainId t) row = none →
      DataTable.addRow t row = (Except.error PyError.missingDomainValue, t)) ∧
    (∀ e t2, DataTable.addRow t row = (Except.error e, t2) → t2 = t) ∧
    ((dictGet (DataTable.domainId t) row).isSome →
      (∀ kv ∈ row, kv.1 ∈ DataTable.columns t) →
      DataTable.addRow t row = (Except.ok t.rows.length, { t with rows := t.rows ++ [row] })) ∧
    ((dictGet (DataTable.domainId t) row).isSome →
      (∃ kv ∈ row, kv.1 ∉ DataTable.columns t) →
      ∃ ks, DataTable.addRow t row = (Except.error (PyError.unknownColumns ks), t) ∧
        ∀ k, k ∈ ks ↔ (k ∈ row.map Prod.fst ∧ k ∉ DataTable.columns t)) := by
  refine ⟨?_, ?_, ?_, ?_⟩
  · intro h
    simp [DataTable.addRow, DataTable.domainId] at h ⊢
    simp [h]
  · intro e t2 h
    unfold DataTable.addRow at h
    split at h
    next =>
      rw [Prod.mk.injEq] at h
      exact h.2.symm
    next =>
      dsimp only at h
      split at h
      next =>
        rw [Prod.mk.injEq] at h
        exact h.2.symm
      next => simp at h
  · intro h1 h2
    rcases Option.isSome_iff_exists.mp h1 with ⟨v, hv⟩
    have hdiff : (row.map Prod.fst).filter
        (fun k => !(decide (k ∈ DataTable.columns t))) = [] := by
      refine List.filter_eq_nil_iff.mpr ?_
      intro a ha
      rcases List.mem_map.mp ha with ⟨kv, hkv, hfst⟩
      simp [hfst ▸ h2 kv hkv]
    simp only [DataTable.domainId] at hv
    simp [DataTable.addRow, hv, hdiff]
  · intro h1 hex
    rcases Option.isSome_iff_exists.mp h1 with ⟨v, hv⟩
    simp only [DataTable.domainId] at hv
    rcases hex with ⟨kv, hkv, hout⟩
    have hmem : kv.1 ∈ ((row.map Prod.fst).filter
        (fun k => !(decide (k ∈ DataTable.columns t)))).dedup := by
      rw [List.mem_dedup, List.mem_filter]
      exact ⟨List.mem_map_of_mem Prod.fst hkv, by simp [hout]⟩
    have hne : ((row.map Prod.fst).filter
        (fun k => !(decide (k ∈ DataTable.columns t)))).dedup ≠ [] :=
      List.ne_nil_of_mem hmem
    refine ⟨((row.map Prod.fst).filter
        (fun k => !(decide (k ∈ DataTable.columns t)))).dedup, ?_, ?_⟩
    · simp [DataTable.addRow, hv, hne]
    · intro k
      rw [List.mem_dedup, List.mem_filter]
      simp

/-- Witness for C1: a concrete successful `addRow` obtained from
`addRow_spec`, at a one-column table over domain column `x`. -/
theorem addRow_spec_witness :
    DataTable.addRow (DataTable.init ⟨"x", [("x", ⟨"x", "x", "number", none⟩)]⟩)
        [("x", Value.vInt 1)] =
      (Except.ok 0, { DataTable.init ⟨"x", [("x", ⟨"x", "x", "number", none⟩)]⟩ with
        rows := [[("x", Value.vInt 1)]] }) := by
  have h := (addRow_spec (DataTable.init ⟨"x", [("x", ⟨"x", "x", "number", none⟩)]⟩)
    [("x", Value.vInt 1)]).2.2.1 (by decide) (by decide)
  simpa using h

/-- C10: `makePlotColumnDesc` substitutes the id for the label both when
the label is omitted (`None`) and when an empty string is explicitly
passed, because both are falsy in the `label if label else id` test. -/
theorem makePlotColumnDesc_label_default (id ty : String) (role : Option String)
    (hty : ty ∈ allowedPlotColumnTypes) :
    (∃ c, makePlotColumnDesc id none ty role = Except.ok c ∧ c.label = id) ∧
    (∃ c, makePlotColumnDesc id (some "") ty role = Except.ok c ∧ c.label = id) := by
  have hdec : decide (ty ∈ allowedPlotColumnTypes) = true := decide_eq_true hty
  constructor
  · have h1 : makePlotColumnDesc id none ty role = Except.ok
        { id := id, label := id, type := ty,
          role := match role with | none => none | some r => if r = "" then none else some r } := by
      simp [makePlotColumnDesc, hdec]
    exact ⟨_, h1, rfl⟩
  · have h2 : makePlotColumnDesc id (some "") ty role = Except.ok
        { id := id, label := id, type := ty,
          role := match role with | none => none | some r => if r = "" then none else some r } := by
      simp [makePlotColumnDesc, hdec]
    exact ⟨_, h2, rfl⟩

/-- Witness for C10 at id `x`, type `string`, no role. -/
theorem makePlotColumnDesc_label_default_witness :
    (∃ c, makePlotColumnDesc "x" none "string" none = Except.ok c ∧ c.label = "x") ∧
    (∃ c, makePlotColumnDesc "x" (some "") "string" none = Except.ok c ∧ c.label = "x") :=
  makePlotColumnDesc_label_default "x" "string" none (by decide)

/-- C6 evaluation: an unsupported type makes `makePlotColumnDesc` raise a
bare `TypeError` (because `PlotColumnException` is declared with `def`,
calling it returns `None` and `raise None` fails), so the failure carries
neither the offending type nor the allowed set; a supported type returns a
descriptor without error. -/
theorem makePlotColumnDesc_invalid_type_bare_typeerror :
    makePlotColumnDesc "x" none "currency" none =
      Except.error PyError.typeErrorRaiseNonException ∧
    (∃ c, makePlotColumnDesc "x" none "number" none = Except.ok c) :=
  ⟨rfl, ⟨_, rfl⟩⟩

/-- C8: adding a descriptor whose id is already registered is a no-op for
`DataTable.addColumn` (the `containsColumn` guard skips re-registration),
and even the unguarded `PlotDescription.addColumn` replaces the descriptor
in place, changing neither the column key order nor the column count. -/
theorem addColumn_idempotent_if_present (t : DataTable) (col : ColDesc)
    (h : PlotDescription.containsColumn t.description col = true) :
    DataTable.addColumn t col = t ∧
    (PlotDescription.addColumn t.description col).columns.map Prod.fst =
      t.description.columns.map Prod.fst ∧
    (PlotDescription.addColumn t.description col).columns.length =
      t.description.columns.length := by
  have hmem : col.id ∈ t.description.columns.map Prod.fst := by
    have h2 := h
    unfold PlotDescription.containsColumn at h2
    exact (dictGet_isSome_iff _ _).mp h2
  have hkeys : (dictInsert col.id col t.description.columns).map Prod.fst =
      t.description.columns.map Prod.fst := keys_dictInsert_of_mem col hmem
  refine ⟨?_, hkeys, ?_⟩
  · unfold DataTable.addColumn
    simp [h]
  · calc (PlotDescription.addColumn t.description col).columns.length
        = ((PlotDescription.addColumn t.description col).columns.map Prod.fst).length :=
          (List.length_map _ _).symm
      _ = (t.description.columns.map Prod.fst).length := by
          unfold PlotDescription.addColumn
          rw [hkeys]
      _ = t.description.columns.length := List.length_map _ _

/-- Witness for C8 at a one-column registry re-adding a descriptor with
the same id. -/
theorem addColumn_idempotent_if_present_witness :
    DataTable.addColumn (DataTable.init ⟨"x", [("x", ⟨"x", "x", "number", none⟩)]⟩)
        ⟨"x", "other label", "string", none⟩ =
      DataTable.init ⟨"x", [("x", ⟨"x", "x", "number", none⟩)]⟩ :=
  (addColumn_idempotent_if_present
    (DataTable.init ⟨"x", [("x", ⟨"x", "x", "number", none⟩)]⟩)
    ⟨"x", "other label", "string", none⟩ (by decide)).1

/-- C5 evaluation: on a column list missing the domain id, plot.py's
`PlotDescription.__init__` fails with a `NameError` (the raise references
`PlotDescriptionError`, a name defined only in main.py), while main.py's
draft fails with the proper `PlotDescriptionError`; when the domain id is
present, both constructions succeed with the domain id registered and the
columns kept in list order. -/
theorem plotDescription_domain_check_eval :
    PlotDescription.make "date" [] =
      Except.error (PyError.nameError "PlotDescriptionError") ∧
    MainPlotDescription.make "date" [] =
      Except.error (PyError.plotDescriptionError "date"
        "Plot description must contain a domain column") ∧
    PlotDescription.make "date"
        [⟨"date", "Date", "datetime", none⟩, ⟨"cpu_time", "CPU Time", "number", none⟩] =
      Except.ok ⟨"date", [("date", ⟨"date", "Date", "datetime", none⟩),
        ("cpu_time", ⟨"cpu_time", "CPU Time", "number", none⟩)]⟩ ∧
    MainPlotDescription.make "date"
        [⟨"date", "Date", "datetime", none⟩, ⟨"cpu_time", "CPU Time", "number", none⟩] =
      Except.ok ⟨"date", [("date", ⟨"date", "Date", "datetime", none⟩),
        ("cpu_time", ⟨"cpu_time", "CPU Time", "number", none⟩)]⟩ :=
  ⟨rfl, rfl, rfl, rfl⟩

/-! ### Helper lemmas about addRow and Plot operations -/

theorem addRow_ok_of_valid (t : DataTable) (r : Row)
    (hdom : (dictGet t.description.domainId r).isSome)
    (hkeys : ∀ kv ∈ r, kv.1 ∈ DataTable.columns t) :
    DataTable.addRow t r = (Except.ok t.rows.length, { t with rows := t.rows ++ [r] }) := by
  rcases Option.isSome_iff_exists.mp hdom with ⟨v, hv⟩
  have hdiff : (r.map Prod.fst).filter (fun k => !(decide (k ∈ DataTable.columns t))) = [] := by
    refine List.filter_eq_nil_iff.mpr ?_
    intro a ha
    rcases List.mem_map.mp ha with ⟨kv, hkv, hfst⟩
    simp [hfst ▸ hkeys kv hkv]
  simp [DataTable.addRow, hv, hdiff]

theorem dictInsert_keys_subset {domId : String} {d : Value} {values : Row}
    {cols : List String} (hdom : domId ∈ cols) (hvals : ∀ kv ∈ values, kv.1 ∈ cols) :
    ∀ kv ∈ dictInsert domId d values, kv.1 ∈ cols := by
  intro kv hkv
  rcases mem_dictInsert hkv with h | h
  · rw [h]
    exact hdom
  · exact hvals kv h

theorem dictGet_dictInsert_self {α β : Type} [DecidableEq α] (k : α) (v : β)
    (l : List (α × β)) : dictGet k (dictInsert k v l) = some v := by
  rw [dictGet_dictInsert]
  simp

/-! ### Claim theorems: serialization -/

/-- C3 counterexample: the row literal actually produced for
`{date: datetime(2021, 1, 2, 3, 4, 5), cpu_time: 42}` is
`["Date(2021, 0, 2, 3, 4, 5)",42]` — the `%` format string of
`_toJsonStrValue` puts a space after each comma inside the `Date`
constructor — which is not the claimed `["Date(2021,0,2,3,4,5)",42]`. -/
theorem createRow_month_spacing_counterexample :
    DataTable.createRow chartTableFull
        [("date", Value.vDatetime 2021 1 2 3 4 5), ("cpu_time", Value.vInt 42)] =
      Except.ok "[\"Date(2021, 0, 2, 3, 4, 5)\",42]" ∧
    "[\"Date(2021, 0, 2, 3, 4, 5)\",42]" ≠ "[\"Date(2021,0,2,3,4,5)\",42]" := by
  constructor
  · rfl
  · decide

/-- C3 amended: serializing the table with columns
`[date: datetime, cpu_time: number]` and the single row
`{date: 2021-01-02T03:04:05, cpu_time: 42}` yields the row literal
`["Date(2021, 0, 2, 3, 4, 5)",42]` (month rendered zero-based, a space
after each comma inside the `Date` constructor), preceded by the
JSON-encoded column-descriptor array, all wrapped in single quotes. -/
theorem toGoogleChartArrayStr_datetime_row :
    DataTable.toGoogleChartArrayStr chartTableFull =
      Except.ok ("\x27[[\x7b\"id\": \"date\", \"label\": \"date\", \"type\": \"datetime\"\x7d, " ++
        "\x7b\"id\": \"cpu_time\", \"label\": \"cpu_time\", \"type\": \"number\"\x7d], " ++
        "[\"Date(2021, 0, 2, 3, 4, 5)\",42]]\x27") := by
  rfl

/-- C4 evaluation: `addRow` accepts a row in which the registered column
`cpu_time` is absent (its docstring says non-domain variables are
optional), but serializing that table raises `KeyError("cpu_time")` from
the `row[col]` lookup instead of rendering `null`; only a column whose
value is present and `None` renders as the literal `null`. -/
theorem serialize_absent_column_keyerror :
    DataTable.addRow (DataTable.init chartDesc) [("date", Value.vDatetime 2021 1 2 3 4 5)] =
      (Except.ok 0, chartTablePartial) ∧
    DataTable.toGoogleChartArrayStr chartTablePartial =
      Except.error (PyError.keyError "cpu_time") ∧
    DataTable.toJsonStrValue chartTablePartial "cpu_time" Value.vNone = Except.ok "null" ∧
    DataTable.createRow chartTableFull
        [("date", Value.vDatetime 2021 1 2 3 4 5), ("cpu_time", Value.vNone)] =
      Except.ok "[\"Date(2021, 0, 2, 3, 4, 5)\",null]" := by
  refine ⟨rfl, rfl, rfl, rfl⟩

/-- C9: `Plot.__setitem__` on a never-indexed domain value does not raise
a not-found error: the `.get(domainValue, -1)` default routes it to the
synthesize-and-append path, which builds `{**values, domainId: d}`,
appends it through `addRow`, and records the new row's position under `d`
in the domain index. -/
theorem setItem_fresh_appends (p : Plot) (d : Value) (values : Row)
    (hfresh : dictGet d p.xAxisIndex = none)
    (hvals : ∀ kv ∈ values, kv.1 ∈ DataTable.columns p.toDataTable)
    (hdom : DataTable.domainId p.toDataTable ∈ DataTable.columns p.toDataTable) :
    Plot.setItem p d values =
      Except.ok { p with
        toDataTable := { p.toDataTable with rows := p.toDataTable.rows ++
          [dictInsert (DataTable.domainId p.toDataTable) d values] },
        xAxisIndex := dictInsert d p.toDataTable.rows.length p.xAxisIndex } := by
  have hget : (dictGet p.toDataTable.description.domainId
      (dictInsert (DataTable.domainId p.toDataTable) d values)).isSome := by
    rw [show p.toDataTable.description.domainId = DataTable.domainId p.toDataTable from rfl,
      dictGet_dictInsert_self]
    rfl
  have hrow := addRow_ok_of_valid p.toDataTable
    (dictInsert (DataTable.domainId p.toDataTable) d values) hget
    (dictInsert_keys_subset hdom hvals)
  simp [Plot.setItem, hfresh, hrow]

/-- Witness for C9: a concrete fresh-domain `__setitem__` on an empty
plot over `chartDesc`. -/
theorem setItem_fresh_appends_witness :
    Plot.setItem (Plot.init chartDesc) (Value.vInt 1) [("cpu_time", Value.vInt 7)] =
      Except.ok { Plot.init chartDesc with
        toDataTable := { (Plot.init chartDesc).toDataTable with
          rows := (Plot.init chartDesc).toDataTable.rows ++
            [dictInsert (DataTable.domainId (Plot.init chartDesc).toDataTable)
              (Value.vInt 1) [("cpu_time", Value.vInt 7)]] },
        xAxisIndex := dictInsert (Value.vInt 1)
          (Plot.init chartDesc).toDataTable.rows.length (Plot.init chartDesc).xAxisIndex } :=
  setItem_fresh_appends (Plot.init chartDesc) (Value.vInt 1) [("cpu_time", Value.vInt 7)]
    (by decide) (by decide) (by decide)

/-! ### Helper lemmas about the domain-index invariant -/

theorem plotInv_lookup (p : Plot) (d : Value) (i : Nat) (hInv : PlotInv p)
    (h : dictGet d p.xAxisIndex = some i) :
    ∃ hi : i < p.toDataTable.rows.length,
      dictGet (DataTable.domainId p.toDataTable) (p.toDataTable.rows.get ⟨i, hi⟩) = some d := by
  have h1 := hInv.1 (d, i) (dictGet_mem h)
  cases hrow : p.toDataTable.rows[i]? with
  | none => rw [hrow] at h1; simp at h1
  | some r =>
    rw [hrow] at h1
    simp only [Option.bind_some] at h1
    rcases List.getElem?_eq_some_iff.mp hrow with ⟨hi, hget⟩
    refine ⟨hi, ?_⟩
    rw [List.get_eq_getElem, hget]
    exact h1

theorem getItem_nat_ok (t : DataTable) (idx : Nat) (h : idx < t.rows.length) :
    DataTable.getItem t (Int.ofNat idx) = Except.ok (t.rows.get ⟨idx, h⟩) := by
  unfold DataTable.getItem
  have h1 : ¬(Int.ofNat idx < 0 ∨ (t.rows.length : Int) ≤ Int.ofNat idx) := by
    push_neg
    simp only [Int.ofNat_eq_coe]
    omega
  rw [if_neg h1]
  have h2 : (Int.ofNat idx).toNat = idx := rfl
  rw [h2, List.getElem?_eq_getElem h]
  rfl

theorem addRow_ok_elim (t : DataTable) (r : Row) (n : Nat) (t2 : DataTable)
    (h : DataTable.addRow t r = (Except.ok n, t2)) :
    n = t.rows.length ∧ t2 = { t with rows := t.rows ++ [r] } := by
  unfold DataTable.addRow at h
  split at h
  next => simp at h
  next =>
    dsimp only at h
    split at h
    next => simp at h
    next =>
      rw [Prod.mk.injEq] at h
      exact ⟨(Except.ok.injEq _ _ ▸ h.1).symm, h.2.symm⟩

theorem setItem_ok_elim (t : DataTable) (i : Int) (vals : Row) (t2 : DataTable)
    (h : DataTable.setItem t i vals = Except.ok t2) :
    (∃ v, dictGet t.description.domainId vals = some v) ∧
    ¬(i < 0 ∨ (t.rows.length : Int) ≤ i) ∧
    t2 = { t with rows := t.rows.set i.toNat vals } := by
  unfold DataTable.setItem at h
  split at h
  next => simp at h
  next hdom =>
    split at h
    next => simp at h
    next hrange =>
      refine ⟨?_, hrange, ?_⟩
      · have hsome : (dictGet t.description.domainId vals).isSome = true := by
          cases hg : dictGet t.description.domainId vals with
          | none => rw [hg] at hdom; simp at hdom
          | some v => simp
        exact Option.isSome_iff_exists.mp hsome
      · cases h
        rfl

theorem plotInv_append (p : Plot) (d : Value) (r : Row) (hInv : PlotInv p)
    (hfresh : dictGet d p.xAxisIndex = none)
    (hr : dictGet (DataTable.domainId p.toDataTable) r = some d) :
    PlotInv { p with
      toDataTable := { p.toDataTable with rows := p.toDataTable.rows ++ [r] },
      xAxisIndex := dictInsert d p.toDataTable.rows.length p.xAxisIndex } := by
  dsimp only [DataTable.domainId] at hr
  constructor
  · intro pr hpr
    dsimp only [DataTable.domainId]
    rcases mem_dictInsert hpr with hp | hp
    · subst hp
      rw [List.getElem?_concat_length]
      simpa using hr
    · have h1 := hInv.1 pr hp
      dsimp only [DataTable.domainId] at h1
      cases hrow : p.toDataTable.rows[pr.2]? with
      | none => rw [hrow] at h1; simp at h1
      | some r3 =>
        rcases List.getElem?_eq_some_iff.mp hrow with ⟨hlt, hget⟩
        rw [List.getElem?_append_left hlt, hrow]
        rw [hrow] at h1
        exact h1
  · intro i hi
    dsimp only [DataTable.domainId]
    simp only [List.get_eq_getElem]
    by_cases hcase : i < p.toDataTable.rows.length
    · rw [List.getElem_append_left hcase]
      have h2 := hInv.2 i hcase
      dsimp only [DataTable.domainId] at h2
      simp only [List.get_eq_getElem] at h2
      cases hdg : dictGet p.toDataTable.description.domainId
          p.toDataTable.rows[i] with
      | none => rw [hdg] at h2; simp at h2
      | some di =>
        rw [hdg] at h2
        simp only [Option.some_bind] at h2 ⊢
        rw [dictGet_dictInsert]
        split
        next heq =>
          rw [← heq] at h2
          rw [hfresh] at h2
          simp at h2
        next heq => exact h2
    · have hieq : i = p.toDataTable.rows.length := by
        have := hi
        simp only [List.length_append, List.length_cons, List.length_nil] at this
        omega
      subst hieq
      simp only [List.getElem_concat_length]
      rw [hr]
      simp only [Option.some_bind]
      exact dictGet_dictInsert_self d _ _

theorem plotInv_set (p : Plot) (d : Value) (i : Nat) (r2 : Row) (hInv : PlotInv p)
    (hseen : dictGet d p.xAxisIndex = some i)
    (hr2 : dictGet (DataTable.domainId p.toDataTable) r2 = some d) :
    PlotInv { p with
      toDataTable := { p.toDataTable with rows := p.toDataTable.rows.set i r2 } } := by
  dsimp only [DataTable.domainId] at hr2
  rcases plotInv_lookup p d i hInv hseen with ⟨hlt, hrowd⟩
  dsimp only [DataTable.domainId] at hrowd
  simp only [List.get_eq_getElem] at hrowd
  constructor
  · intro pr hpr
    dsimp only [DataTable.domainId]
    have h1 := hInv.1 pr hpr
    dsimp only [DataTable.domainId] at h1
    cases hrow : p.toDataTable.rows[pr.2]? with
    | none => rw [hrow] at h1; simp at h1
    | some r3 =>
      rw [hrow] at h1
      simp only [Option.some_bind] at h1
      rcases List.getElem?_eq_some_iff.mp hrow with ⟨hlt3, hget3⟩
      by_cases hcase : pr.2 = i
      · subst hcase
        have hpr1 : pr.1 = d := by
          rw [hget3] at hrowd
          rw [h1] at hrowd
          exact Option.some.inj hrowd
        rw [List.getElem?_set_self (by simpa using hlt)]
        simp only [Option.some_bind]
        rw [hr2, hpr1]
      · rw [List.getElem?_set_ne (fun hh => hcase hh.symm), hrow]
        simp only [Option.some_bind]
        exact h1
  · intro j hj
    dsimp only [DataTable.domainId]
    simp only [List.get_eq_getElem]
    have hjlen : j < p.toDataTable.rows.length := by simpa using hj
    by_cases hcase : j = i
    · subst hcase
      rw [List.getElem_set_self (by simpa using hjlen)]
      rw [hr2]
      simp only [Option.some_bind]
      exact hseen
    · rw [List.getElem_set_ne (fun hh => hcase hh.symm)]
      have h2 := hInv.2 j hjlen
      dsimp only [DataTable.domainId] at h2
      simp only [List.get_eq_getElem] at h2
      exact h2

theorem getItem_nat_ok_elim (t : DataTable) (idx : Nat) (r : Row)
    (h : DataTable.getItem t (Int.ofNat idx) = Except.ok r) :
    ∃ hlt : idx < t.rows.length, r = t.rows.get ⟨idx, hlt⟩ := by
  unfold DataTable.getItem at h
  split at h
  next => simp at h
  next hcond =>
    push_neg at hcond
    have hlt : idx < t.rows.length := by
      rcases hcond with ⟨h1, h2⟩
      simp only [Int.ofNat_eq_coe] at h2
      omega
    refine ⟨hlt, ?_⟩
    rw [show (Int.ofNat idx).toNat = idx from rfl] at h
    rw [List.getElem?_eq_getElem hlt] at h
    simp only [Except.ok.injEq] at h
    rw [List.get_eq_getElem]
    exact h.symm

theorem addValue_ok_cases (p p2 : Plot) (d : Value) (vals : Row)
    (h : Plot.addValue p d vals = Except.ok p2) :
    (dictGet d p.xAxisIndex = none ∧
      p2 = { p with
        toDataTable := { p.toDataTable with rows := p.toDataTable.rows ++
          [dictInsert (DataTable.domainId p.toDataTable) d vals] },
        xAxisIndex := dictInsert d p.toDataTable.rows.length p.xAxisIndex }) ∨
    (∃ (idx : Nat) (hlt : idx < p.toDataTable.rows.length),
      dictGet d p.xAxisIndex = some idx ∧
      p2 = { p with
        toDataTable := { p.toDataTable with rows := (p.toDataTable.rows.set idx
          (updateRow (p.toDataTable.rows.get ⟨idx, hlt⟩) vals)) } }) := by
  unfold Plot.addValue at h
  split at h
  next => simp at h
  next =>
    split at h
    next hidx =>
      left
      refine ⟨hidx, ?_⟩
      cases haddr : DataTable.addRow p.toDataTable
          (dictInsert (DataTable.domainId p.toDataTable) d vals) with
      | mk res t2 =>
        rw [haddr] at h
        cases res with
        | error e => simp at h
        | ok rowId =>
          simp only [Except.ok.injEq] at h
          rcases addRow_ok_elim _ _ _ _ haddr with ⟨hn, ht2⟩
          rw [← h, ht2, hn]
    next idx hidx =>
      right
      cases hget : DataTable.getItem p.toDataTable (Int.ofNat idx) with
      | error e => rw [hget] at h; simp at h
      | ok r =>
        rw [hget] at h
        simp only [Except.ok.injEq] at h
        rcases getItem_nat_ok_elim _ _ _ hget with ⟨hlt, hr⟩
        refine ⟨idx, hlt, hidx, ?_⟩
        rw [← h, hr]

theorem plotSetItem_ok_cases (p p2 : Plot) (d : Value) (vals : Row)
    (h : Plot.setItem p d vals = Except.ok p2) :
    (dictGet d p.xAxisIndex = none ∧
      p2 = { p with
        toDataTable := { p.toDataTable with rows := p.toDataTable.rows ++
          [dictInsert (DataTable.domainId p.toDataTable) d vals] },
        xAxisIndex := dictInsert d p.toDataTable.rows.length p.xAxisIndex }) ∨
    (∃ idx : Nat, dictGet d p.xAxisIndex = some idx ∧ idx < p.toDataTable.rows.length ∧
      (∃ v, dictGet p.toDataTable.description.domainId vals = some v) ∧
      p2 = { p with
        toDataTable := { p.toDataTable with rows := p.toDataTable.rows.set idx vals } }) := by
  unfold Plot.setItem at h
  split at h
  next hidx =>
    left
    refine ⟨hidx, ?_⟩
    cases haddr : DataTable.addRow p.toDataTable
        (dictInsert (DataTable.domainId p.toDataTable) d vals) with
    | mk res t2 =>
      rw [haddr] at h
      cases res with
      | error e => simp at h
      | ok rowId =>
        simp only [Except.ok.injEq] at h
        rcases addRow_ok_elim _ _ _ _ haddr with ⟨hn, ht2⟩
        rw [← h, ht2, hn]
  next idx hidx =>
    right
    cases hset : DataTable.setItem p.toDataTable (Int.ofNat idx) vals with
    | error e => rw [hset] at h; simp at h
    | ok t2 =>
      rw [hset] at h
      simp only [Except.ok.injEq] at h
      rcases setItem_ok_elim _ _ _ _ hset with ⟨hv, hrange, ht2⟩
      push_neg at hrange
      have hlt : idx < p.toDataTable.rows.length := by
        rcases hrange with ⟨h1, h2⟩
        simp only [Int.ofNat_eq_coe] at h2
        omega
      refine ⟨idx, hidx, hlt, hv, ?_⟩
      rw [← h, ht2]
      rfl

theorem applyOp_preserves (p p2 : Plot) (op : PlotOp) (hInv : PlotInv p)
    (hgood : goodOp (DataTable.domainId p.toDataTable) op = true)
    (h : Plot.applyOp p op = Except.ok p2) : PlotInv p2 := by
  cases op with
  | addRowOp row => simp [goodOp] at hgood
  | addValueOp d vals =>
    have hgood2 : ∀ kv ∈ vals, kv.1 = DataTable.domainId p.toDataTable → kv.2 = d := by
      simp only [goodOp, List.all_eq_true] at hgood
      intro kv hkv hk
      exact of_decide_eq_true (hgood kv hkv) hk
    rcases addValue_ok_cases p p2 d vals h with ⟨hfresh, hp2⟩ | ⟨idx, hlt, hseen, hp2⟩
    · subst hp2
      exact plotInv_append p d _ hInv hfresh (dictGet_dictInsert_self _ _ _)
    · subst hp2
      have hrowd : dictGet (DataTable.domainId p.toDataTable)
          (updateRow (p.toDataTable.rows.get ⟨idx, hlt⟩) vals) = some d := by
        rcases plotInv_lookup p d idx hInv hseen with ⟨hlt2, hdom⟩
        exact dictGet_updateRow_fixed _ hdom hgood2
      exact plotInv_set p d idx _ hInv hseen hrowd
  | setItemOp d vals =>
    have hgood2 : ∀ kv ∈ vals, kv.1 = DataTable.domainId p.toDataTable → kv.2 = d := by
      simp only [goodOp, List.all_eq_true] at hgood
      intro kv hkv hk
      exact of_decide_eq_true (hgood kv hkv) hk
    rcases plotSetItem_ok_cases p p2 d vals h with ⟨hfresh, hp2⟩ | ⟨idx, hseen, hlt, ⟨v, hv⟩, hp2⟩
    · subst hp2
      exact plotInv_append p d _ hInv hfresh (dictGet_dictInsert_self _ _ _)
    · subst hp2
      have hvd : dictGet (DataTable.domainId p.toDataTable) vals = some d := by
        have hmem := dictGet_mem hv
        have hvd2 : v = d := hgood2 (p.toDataTable.description.domainId, v) hmem rfl
        show dictGet p.toDataTable.description.domainId vals = some d
        rw [hv, hvd2]
      exact plotInv_set p d idx vals hInv hseen hvd

theorem applyOp_description (p p2 : Plot) (op : PlotOp)
    (h : Plot.applyOp p op = Except.ok p2) :
    p2.toDataTable.description = p.toDataTable.description := by
  cases op with
  | addValueOp d vals =>
    rcases addValue_ok_cases p p2 d vals h with ⟨_, hp2⟩ | ⟨idx, hlt, _, hp2⟩ <;>
      subst hp2 <;> rfl
  | setItemOp d vals =>
    rcases plotSetItem_ok_cases p p2 d vals h with ⟨_, hp2⟩ | ⟨idx, _, _, _, hp2⟩ <;>
      subst hp2 <;> rfl
  | addRowOp row =>
    simp only [Plot.applyOp] at h
    split at h
    next rowId t2 heq =>
      simp only [Except.ok.injEq] at h
      rcases addRow_ok_elim _ _ _ _ heq with ⟨hn, ht2⟩
      rw [← h, ht2]
    next => simp at h

theorem applyOps_cons (p : Plot) (op : PlotOp) (t : List PlotOp) :
    Plot.applyOps p (op :: t) =
      match Plot.applyOp p op with
      | Except.error e => Except.error e
      | Except.ok p1 => Plot.applyOps p1 t := by
  unfold Plot.applyOps
  simp only [List.foldlM]
  cases Plot.applyOp p op <;> rfl

theorem applyOps_preserves (ops : List PlotOp) (p p2 : Plot) (hInv : PlotInv p)
    (hgood : ∀ op ∈ ops, goodOp (DataTable.domainId p.toDataTable) op = true)
    (h : Plot.applyOps p ops = Except.ok p2) : PlotInv p2 := by
  induction ops generalizing p with
  | nil =>
    have hpp : Except.ok p = Except.ok p2 := h
    cases hpp
    exact hInv
  | cons op t ih =>
    rw [applyOps_cons] at h
    cases happ : Plot.applyOp p op with
    | error e =>
      rw [happ] at h
      simp at h
    | ok p1 =>
      rw [happ] at h
      have hInv1 := applyOp_preserves p p1 op hInv (hgood op (List.mem_cons_self _ _)) happ
      have hdesc := applyOp_description p p1 op happ
      have hgood1 : ∀ op2 ∈ t, goodOp (DataTable.domainId p1.toDataTable) op2 = true := by
        intro op2 hop2
        have hdid : DataTable.domainId p1.toDataTable = DataTable.domainId p.toDataTable := by
          unfold DataTable.domainId
          rw [hdesc]
        rw [hdid]
        exact hgood op2 (List.mem_cons_of_mem _ hop2)
      exact ih p1 hInv1 hgood1 h

/-! ### Claim theorems: domain-index invariant -/

/-- C7 counterexample: the claim as stated is false, because the
inherited `DataTable.addRow` is callable on a `Plot` and appends a row
without touching `__xAxisIndex`.  Starting from an empty plot (which
satisfies the invariant), one successful `addRow` yields a state whose
single row's domain value is not indexed at all. -/
theorem plot_domain_index_counterexample :
    PlotInv (Plot.init ⟨"x", [("x", ⟨"x", "x", "number", none⟩)]⟩) ∧
    Plot.applyOps (Plot.init ⟨"x", [("x", ⟨"x", "x", "number", none⟩)]⟩)
        [PlotOp.addRowOp [("x", Value.vInt 0)]] =
      Except.ok ⟨⟨⟨"x", [("x", ⟨"x", "x", "number", none⟩)]⟩,
        [[("x", Value.vInt 0)]], []⟩, []⟩ ∧
    ¬ PlotInv ⟨⟨⟨"x", [("x", ⟨"x", "x", "number", none⟩)]⟩,
        [[("x", Value.vInt 0)]], []⟩, []⟩ := by
  refine ⟨by decide, rfl, by decide⟩

/-- C7 amended: restricted to the operations that maintain the index —
`addValue` and `__setitem__` by domain value, with value mappings that
either omit the domain id or bind it to the operation's own domain value
(`goodOp`); the inherited `addRow` is excluded since it bypasses the
index — every successful operation sequence from an invariant-satisfying
plot preserves consistency of the domain index with the row sequence, and
in the resulting state at most one row exists per distinct domain
value. -/
theorem plot_domain_index_invariant (p p2 : Plot) (ops : List PlotOp)
    (hInv : PlotInv p)
    (hgood : ∀ op ∈ ops, goodOp (DataTable.domainId p.toDataTable) op = true)
    (h : Plot.applyOps p ops = Except.ok p2) :
    PlotInv p2 ∧
    ∀ (i j : Nat) (hi : i < p2.toDataTable.rows.length)
      (hj : j < p2.toDataTable.rows.length) (dv : Value),
      dictGet (DataTable.domainId p2.toDataTable) (p2.toDataTable.rows.get ⟨i, hi⟩) =
        some dv →
      dictGet (DataTable.domainId p2.toDataTable) (p2.toDataTable.rows.get ⟨j, hj⟩) =
        some dv →
      i = j := by
  have hInv2 := applyOps_preserves ops p p2 hInv hgood h
  refine ⟨hInv2, ?_⟩
  intro i j hi hj dv hdi hdj
  have h1 := hInv2.2 i hi
  have h2 := hInv2.2 j hj
  rw [hdi] at h1
  rw [hdj] at h2
  simp only [Option.some_bind] at h1 h2
  rw [h1] at h2
  exact Option.some.inj h2

/-- Witness for C7: an `addValue` followed by a domain-preserving
`__setitem__` at the same domain value, from an empty plot over
`chartDesc`; the resulting concrete state satisfies the invariant. -/
theorem plot_domain_index_invariant_witness :
    PlotInv ⟨⟨chartDesc, [[("date", Value.vInt 1), ("cpu_time", Value.vInt 6)]], []⟩,
      [(Value.vInt 1, 0)]⟩ :=
  (plot_domain_index_invariant (Plot.init chartDesc)
    ⟨⟨chartDesc, [[("date", Value.vInt 1), ("cpu_time", Value.vInt 6)]], []⟩,
      [(Value.vInt 1, 0)]⟩
    [PlotOp.addValueOp (Value.vInt 1) [("cpu_time", Value.vInt 5)],
     PlotOp.setItemOp (Value.vInt 1) [("date", Value.vInt 1), ("cpu_time", Value.vInt 6)]]
    (by decide) (by decide) rfl).1

theorem addValue_fresh_eq (p : Plot) (d : Value) (vals : Row)
    (hvals : ∀ kv ∈ vals, kv.1 ∈ DataTable.columns p.toDataTable)
    (hdom : DataTable.domainId p.toDataTable ∈ DataTable.columns p.toDataTable)
    (hfresh : dictGet d p.xAxisIndex = none) :
    Plot.addValue p d vals = Except.ok { p with
      toDataTable := { p.toDataTable with rows := p.toDataTable.rows ++
        [dictInsert (DataTable.domainId p.toDataTable) d vals] },
      xAxisIndex := dictInsert d p.toDataTable.rows.length p.xAxisIndex } := by
  have hfind : vals.find?
      (fun kv => !(decide (kv.1 ∈ DataTable.columns p.toDataTable))) = none := by
    rw [List.find?_eq_none]
    intro kv hkv
    simp [hvals kv hkv]
  have hget : (dictGet p.toDataTable.description.domainId
      (dictInsert (DataTable.domainId p.toDataTable) d vals)).isSome := by
    rw [show p.toDataTable.description.domainId = DataTable.domainId p.toDataTable from rfl,
      dictGet_dictInsert_self]
    rfl
  have hrow := addRow_ok_of_valid p.toDataTable
    (dictInsert (DataTable.domainId p.toDataTable) d vals) hget
    (dictInsert_keys_subset hdom hvals)
  simp [Plot.addValue, hfind, hfresh, hrow]

theorem addValue_seen_eq (p : Plot) (d : Value) (vals : Row) (idx : Nat)
    (hlt : idx < p.toDataTable.rows.length)
    (hvals : ∀ kv ∈ vals, kv.1 ∈ DataTable.columns p.toDataTable)
    (hseen : dictGet d p.xAxisIndex = some idx) :
    Plot.addValue p d vals = Except.ok { p with
      toDataTable := { p.toDataTable with rows := (p.toDataTable.rows.set idx
        (updateRow (p.toDataTable.rows.get ⟨idx, hlt⟩) vals)) } } := by
  have hfind : vals.find?
      (fun kv => !(decide (kv.1 ∈ DataTable.columns p.toDataTable))) = none := by
    rw [List.find?_eq_none]
    intro kv hkv
    simp [hvals kv hkv]
  have hget := getItem_nat_ok p.toDataTable idx hlt
  rw [Int.ofNat_eq_coe] at hget
  simp [Plot.addValue, hfind, hseen, hget]

/-! ### Claim theorems: upsert -/

/-- C2: on a plot satisfying the domain-index invariant, two sequential
`addValue(d, A)` and `addValue(d, B)` calls with disjoint, registered,
non-domain key sets both succeed, and afterwards exactly one row exists
whose domain value is `d`; that row carries every key-value pair of `A`
and of `B` together with the domain entry. -/
theorem addValue_upsert (p : Plot) (d : Value) (A B : Row)
    (hInv : PlotInv p)
    (hdom : DataTable.domainId p.toDataTable ∈ DataTable.columns p.toDataTable)
    (hA : ∀ kv ∈ A, kv.1 ∈ DataTable.columns p.toDataTable)
    (hB : ∀ kv ∈ B, kv.1 ∈ DataTable.columns p.toDataTable)
    (hAdom : ∀ kv ∈ A, kv.1 ≠ DataTable.domainId p.toDataTable)
    (hBdom : ∀ kv ∈ B, kv.1 ≠ DataTable.domainId p.toDataTable)
    (hdisj : ∀ kv ∈ A, kv.1 ∉ B.map Prod.fst)
    (hndA : (A.map Prod.fst).Nodup) (hndB : (B.map Prod.fst).Nodup) :
    ∃ p1 p2, Plot.addValue p d A = Except.ok p1 ∧ Plot.addValue p1 d B = Except.ok p2 ∧
      ∃ (i : Nat) (hi : i < p2.toDataTable.rows.length),
        dictGet (DataTable.domainId p2.toDataTable) (p2.toDataTable.rows.get ⟨i, hi⟩) =
          some d ∧
        (∀ kv ∈ A, dictGet kv.1 (p2.toDataTable.rows.get ⟨i, hi⟩) = some kv.2) ∧
        (∀ kv ∈ B, dictGet kv.1 (p2.toDataTable.rows.get ⟨i, hi⟩) = some kv.2) ∧
        (∀ (j : Nat) (hj : j < p2.toDataTable.rows.length),
          dictGet (DataTable.domainId p2.toDataTable) (p2.toDataTable.rows.get ⟨j, hj⟩) =
            some d → j = i) := by
  have hBdomkeys : DataTable.domainId p.toDataTable ∉ B.map Prod.fst := by
    intro hmem
    rcases List.mem_map.mp hmem with ⟨kv, hkv, hfst⟩
    exact hBdom kv hkv hfst
  have hAdomkeys : DataTable.domainId p.toDataTable ∉ A.map Prod.fst := by
    intro hmem
    rcases List.mem_map.mp hmem with ⟨kv, hkv, hfst⟩
    exact hAdom kv hkv hfst
  dsimp only [DataTable.domainId] at hAdomkeys hBdomkeys
  cases hcase : dictGet d p.xAxisIndex with
  | none =>
    have h1 := addValue_fresh_eq p d A hA hdom hcase
    have hlt1 : p.toDataTable.rows.length < (p.toDataTable.rows ++
        [dictInsert (DataTable.domainId p.toDataTable) d A]).length := by
      simp
    have h2 := addValue_seen_eq
        ⟨⟨p.toDataTable.description,
          p.toDataTable.rows ++ [dictInsert (DataTable.domainId p.toDataTable) d A],
          p.toDataTable.options⟩,
          dictInsert d p.toDataTable.rows.length p.xAxisIndex⟩
        d B p.toDataTable.rows.length hlt1 hB (dictGet_dictInsert_self _ _ _)
    refine ⟨_, _, h1, h2, ?_⟩
    dsimp only [DataTable.domainId] at h2 ⊢
    have hi2 : p.toDataTable.rows.length < ((p.toDataTable.rows ++
        [dictInsert p.toDataTable.description.domainId d A]).set
          p.toDataTable.rows.length
          (updateRow ((p.toDataTable.rows ++
            [dictInsert p.toDataTable.description.domainId d A]).get
              ⟨p.toDataTable.rows.length, hlt1⟩) B)).length := by
      simp
    refine ⟨p.toDataTable.rows.length, hi2, ?_, ?_, ?_, ?_⟩
    all_goals
      have hrow2 : ((p.toDataTable.rows ++
          [dictInsert p.toDataTable.description.domainId d A]).set
            p.toDataTable.rows.length
            (updateRow ((p.toDataTable.rows ++
              [dictInsert p.toDataTable.description.domainId d A]).get
                ⟨p.toDataTable.rows.length, hlt1⟩) B)).get
            ⟨p.toDataTable.rows.length, hi2⟩ =
          updateRow (dictInsert p.toDataTable.description.domainId d A) B := by
        simp only [List.get_eq_getElem, List.getElem_set_self, List.getElem_concat_length]
    · rw [hrow2, dictGet_updateRow_not_mem _ hBdomkeys, dictGet_dictInsert_self]
    · intro kv hkv
      rw [hrow2, dictGet_updateRow_not_mem _ (hdisj kv hkv), dictGet_dictInsert]
      rw [if_neg (fun hh => hAdom kv hkv hh.symm)]
      exact dictGet_eq_some_of_mem_nodup hndA hkv
    · intro kv hkv
      rw [hrow2]
      exact dictGet_updateRow_mem_nodup _ hndB hkv
    · intro j hj hdj
      have hjlen : j < p.toDataTable.rows.length + 1 := by simpa using hj
      by_cases hjcase : j < p.toDataTable.rows.length
      · exfalso
        have hgetj : ((p.toDataTable.rows ++
            [dictInsert p.toDataTable.description.domainId d A]).set
              p.toDataTable.rows.length
              (updateRow ((p.toDataTable.rows ++
                [dictInsert p.toDataTable.description.domainId d A]).get
                  ⟨p.toDataTable.rows.length, hlt1⟩) B)).get ⟨j, hj⟩ =
            p.toDataTable.rows.get ⟨j, hjcase⟩ := by
          simp only [List.get_eq_getElem]
          rw [List.getElem_set_ne (by omega)]
          exact List.getElem_append_left hjcase
        rw [hgetj] at hdj
        have h2j := hInv.2 j hjcase
        dsimp only [DataTable.domainId] at h2j
        rw [hdj] at h2j
        simp only [Option.some_bind] at h2j
        rw [hcase] at h2j
        exact Option.noConfusion h2j
      · omega
  | some idx =>
    rcases plotInv_lookup p d idx hInv hcase with ⟨hlt, hrowdom⟩
    dsimp only [DataTable.domainId] at hrowdom
    have h1 := addValue_seen_eq p d A idx hlt hA hcase
    have hlt1 : idx < (p.toDataTable.rows.set idx
        (updateRow (p.toDataTable.rows.get ⟨idx, hlt⟩) A)).length := by
      simpa using hlt
    have h2 := addValue_seen_eq
        ⟨⟨p.toDataTable.description,
          p.toDataTable.rows.set idx (updateRow (p.toDataTable.rows.get ⟨idx, hlt⟩) A),
          p.toDataTable.options⟩, p.xAxisIndex⟩
        d B idx hlt1 hB hcase
    refine ⟨_, _, h1, h2, ?_⟩
    dsimp only [DataTable.domainId] at h2 ⊢
    have hi2 : idx < ((p.toDataTable.rows.set idx
        (updateRow (p.toDataTable.rows.get ⟨idx, hlt⟩) A)).set idx
          (updateRow ((p.toDataTable.rows.set idx
            (updateRow (p.toDataTable.rows.get ⟨idx, hlt⟩) A)).get ⟨idx, hlt1⟩)
            B)).length := by
      simpa using hlt
    refine ⟨idx, hi2, ?_, ?_, ?_, ?_⟩
    all_goals
      have hrow2 : ((p.toDataTable.rows.set idx
          (updateRow (p.toDataTable.rows.get ⟨idx, hlt⟩) A)).set idx
            (updateRow ((p.toDataTable.rows.set idx
              (updateRow (p.toDataTable.rows.get ⟨idx, hlt⟩) A)).get ⟨idx, hlt1⟩)
              B)).get ⟨idx, hi2⟩ =
          updateRow (updateRow (p.toDataTable.rows.get ⟨idx, hlt⟩) A) B := by
        simp only [List.get_eq_getElem, List.getElem_set_self]
    · rw [hrow2, dictGet_updateRow_not_mem _ hBdomkeys, dictGet_updateRow_not_mem _ hAdomkeys]
      exact hrowdom
    · intro kv hkv
      rw [hrow2, dictGet_updateRow_not_mem _ (hdisj kv hkv)]
      exact dictGet_updateRow_mem_nodup _ hndA hkv
    · intro kv hkv
      rw [hrow2]
      exact dictGet_updateRow_mem_nodup _ hndB hkv
    · intro j hj hdj
      have hjlen : j < p.toDataTable.rows.length := by simpa using hj
      by_cases hjcase : j = idx
      · exact hjcase
      · exfalso
        have hgetj : ((p.toDataTable.rows.set idx
            (updateRow (p.toDataTable.rows.get ⟨idx, hlt⟩) A)).set idx
              (updateRow ((p.toDataTable.rows.set idx
                (updateRow (p.toDataTable.rows.get ⟨idx, hlt⟩) A)).get ⟨idx, hlt1⟩)
                B)).get ⟨j, hj⟩ =
            p.toDataTable.rows.get ⟨j, hjlen⟩ := by
          simp only [List.get_eq_getElem]
          rw [List.getElem_set_ne (fun hh => hjcase hh.symm),
            List.getElem_set_ne (fun hh => hjcase hh.symm)]
        rw [hgetj] at hdj
        have h2j := hInv.2 j hjlen
        dsimp only [DataTable.domainId] at h2j
        rw [hdj] at h2j
        simp only [Option.some_bind] at h2j
        rw [hcase] at h2j
        exact hjcase (Option.some.inj h2j).symm

/-- Witness for C2: two upserts at domain value 9 with disjoint singleton
mappings over a three-column registry, starting from the empty plot. -/
theorem addValue_upsert_witness :
    ∃ p1 p2,
      Plot.addValue (Plot.init ⟨"x", [("x", ⟨"x", "x", "number", none⟩),
          ("a", ⟨"a", "a", "number", none⟩), ("b", ⟨"b", "b", "number", none⟩)]⟩)
        (Value.vInt 9) [("a", Value.vInt 1)] = Except.ok p1 ∧
      Plot.addValue p1 (Value.vInt 9) [("b", Value.vInt 2)] = Except.ok p2 ∧
      ∃ (i : Nat) (hi : i < p2.toDataTable.rows.length),
        dictGet (DataTable.domainId p2.toDataTable) (p2.toDataTable.rows.get ⟨i, hi⟩) =
          some (Value.vInt 9) ∧
        (∀ kv ∈ [("a", Value.vInt 1)],
          dictGet kv.1 (p2.toDataTable.rows.get ⟨i, hi⟩) = some kv.2) ∧
        (∀ kv ∈ [("b", Value.vInt 2)],
          dictGet kv.1 (p2.toDataTable.rows.get ⟨i, hi⟩) = some kv.2) ∧
        (∀ (j : Nat) (hj : j < p2.toDataTable.rows.length),
          dictGet (DataTable.domainId p2.toDataTable) (p2.toDataTable.rows.get ⟨j, hj⟩) =
            some (Value.vInt 9) → j = i) :=
  addValue_upsert _ _ _ _ (by decide) (by decide) (by decide) (by decide) (by decide)
    (by decide) (by decide) (by decide) (by decide)
